import Mathlib

set_option maxRecDepth 200000

/-!
Verification of the Thermalright-usblcd C++ driver (src/CLcdDriver.cpp) against
its natural-language specification.  The C++ code is shallowly embedded: machine
integers become `Nat` with explicit masking where overflow matters, `std::vector`
becomes `List Nat`, fallible operations become `Except`/`Option`, and the
environment (libusb transfers, sysfs sensor readings, OpenCV decoding) becomes
explicit parameters.
-/

namespace LcdDriver

/-! ## Constants (CLcdDriver.cpp lines 30-31) -/

def WIDTH : Nat := 320

def HEIGHT : Nat := 240

/-! ## Pixel packer (CLcdDriver.cpp lines 1385-1421)

`rgb_to_rgb565` embeds the C++ inline function
`((r & 0xF8) << 8) | ((g & 0xFC) << 3) | (b >> 3)` (arguments are `uint8_t`,
the arithmetic happens in `int` and never overflows, so plain `Nat` is exact).
-/

def rgb_to_rgb565 (r g b : Nat) : Nat :=
  ((r &&& 0xF8) <<< 8) ||| ((g &&& 0xFC) <<< 3) ||| (b >>> 3)

/-- One iteration of the innermost `for (row ...)` loop of
`image_to_rgb565_chunks`: the two little-endian bytes pushed for the pixel at
emission position `row` of absolute column `ac`.  `img` is the raw 320x240x3
RGB buffer, indexed byte-wise. -/
def pixelBytes (img : Nat → Nat) (ac row : Nat) : List Nat :=
  let flipped := HEIGHT - 1 - row
  let idx := (flipped * WIDTH + ac) * 3
  let v := rgb_to_rgb565 (img idx) (img (idx + 1)) (img (idx + 2))
  [v &&& 0xFF, (v >>> 8) &&& 0xFF]

/-- The bytes pushed for one column `ac` (the `for (row ...)` loop). -/
def columnBytes (img : Nat → Nat) (ac : Nat) : List Nat :=
  (List.range HEIGHT).flatMap (fun row => pixelBytes img ac row)

/-- The bytes of one chunk: columns `start .. start+w-1` (the `for (col ...)` loop). -/
def chunkBytes (img : Nat → Nat) (start w : Nat) : List Nat :=
  (List.range w).flatMap (fun col => columnBytes img (start + col))

/-- `ImageConverter::image_to_rgb565_chunks`: chunk widths {120, 120, 80},
`start` accumulating 0, 120, 240. -/
def image_to_rgb565_chunks (img : Nat → Nat) : List (List Nat) :=
  [chunkBytes img 0 120, chunkBytes img 120 120, chunkBytes img 240 80]

def chunkStart : Nat → Nat
  | 0 => 0
  | 1 => 120
  | _ => 240

def chunkWidth : Nat → Nat
  | 0 => 120
  | 1 => 120
  | _ => 80

/-! ### Generic lemmas about `flatMap` over `List.range` with constant inner length -/

theorem flatMap_range_length {α : Type} (f : Nat → List α) (L : Nat)
    (h : ∀ m, (f m).length = L) :
    ∀ n, ((List.range n).flatMap f).length = n * L := by
  intro n
  induction n with
  | zero => simp
  | succ n ih =>
      rw [List.range_succ, List.flatMap_append, List.length_append, ih]
      simp [h, Nat.succ_mul]

theorem flatMap_range_getElem? {α : Type} (f : Nat → List α) (L n j r : Nat)
    (h : ∀ m, (f m).length = L) (hj : j < n) (hr : r < L) :
    ((List.range n).flatMap f)[j * L + r]? = (f j)[r]? := by
  induction n with
  | zero => omega
  | succ n ih =>
      rw [List.range_succ, List.flatMap_append]
      rcases Nat.lt_or_ge j n with hjn | hjn
      · have hmul : j * L + L ≤ n * L := by
          have h1 : (j + 1) * L ≤ n * L := Nat.mul_le_mul_right L hjn
          simpa [Nat.succ_mul] using h1
        have hlen : j * L + r < ((List.range n).flatMap f).length := by
          rw [flatMap_range_length f L h n]; omega
        rw [List.getElem?_append_left hlen, ih hjn]
      · have hje : j = n := by omega
        subst hje
        have hlen : ((List.range j).flatMap f).length ≤ j * L + r := by
          rw [flatMap_range_length f L h j]; omega
        rw [List.getElem?_append_right hlen, flatMap_range_length f L h j]
        simp [Nat.add_sub_cancel_left]

theorem columnBytes_length (img : Nat → Nat) (ac : Nat) :
    (columnBytes img ac).length = 480 := by
  have := flatMap_range_length (fun row => pixelBytes img ac row) 2
    (fun m => rfl) HEIGHT
  simpa [columnBytes, HEIGHT] using this

theorem chunkBytes_length (img : Nat → Nat) (start w : Nat) :
    (chunkBytes img start w).length = w * 480 := by
  exact flatMap_range_length (fun col => columnBytes img (start + col)) 480
    (fun m => columnBytes_length img (start + m)) w

/-- Byte `δ` (0 = low, 1 = high) of the pixel emitted at column-position `col`,
row-position `p` of a chunk starting at absolute column `start`. -/
theorem chunkBytes_getElem? (img : Nat → Nat) (start w col p δ : Nat)
    (hcol : col < w) (hp : p < HEIGHT) (hδ : δ < 2) :
    (chunkBytes img start w)[(col * HEIGHT + p) * 2 + δ]? =
      (pixelBytes img (start + col) p)[δ]? := by
  have houter : (chunkBytes img start w)[col * 480 + (p * 2 + δ)]? =
      (columnBytes img (start + col))[p * 2 + δ]? := by
    exact flatMap_range_getElem? (fun c => columnBytes img (start + c)) 480 w col
      (p * 2 + δ) (fun m => columnBytes_length img (start + m)) hcol
      (by unfold HEIGHT at hp; omega)
  have hinner : (columnBytes img (start + col))[p * 2 + δ]? =
      (pixelBytes img (start + col) p)[δ]? := by
    exact flatMap_range_getElem? (fun row => pixelBytes img (start + col) row) 2
      HEIGHT p δ (fun m => rfl) hp hδ
  have harith : (col * HEIGHT + p) * 2 + δ = col * 480 + (p * 2 + δ) := by
    unfold HEIGHT; ring
  rw [harith, houter, hinner]

/-! ### Arithmetic characterisation of the RGB565 encoding -/

theorem and248_eq : ∀ r < 256, r &&& 0xF8 = r / 8 * 8 := by decide

theorem and252_eq : ∀ g < 256, g &&& 0xFC = g / 4 * 4 := by decide

set_option maxHeartbeats 4000000 in
theorem lor_decomp : ∀ a < 32, ∀ c < 64, ∀ d < 32,
    (a * 2048 ||| c * 32) ||| d = a * 2048 + c * 32 + d := by decide

set_option maxHeartbeats 4000000 in
theorem and255_split : ∀ h < 256, ∀ l < 256, (256 * h + l) &&& 0xFF = l := by decide

theorem and255_small : ∀ x < 256, x &&& 0xFF = x := by decide

/-- For in-range bytes the RGB565 word is the sum of its three disjoint fields. -/
theorem rgb_to_rgb565_eq (r g b : Nat) (hr : r < 256) (hg : g < 256) (hb : b < 256) :
    rgb_to_rgb565 r g b = r / 8 * 2048 + g / 4 * 32 + b / 8 := by
  unfold rgb_to_rgb565
  rw [and248_eq r hr, and252_eq g hg, Nat.shiftRight_eq_div_pow,
    Nat.shiftLeft_eq, Nat.shiftLeft_eq]
  have hR : r / 8 * 8 * 2 ^ 8 = r / 8 * 2048 := by ring
  have hG : g / 4 * 4 * 2 ^ 3 = g / 4 * 32 := by ring
  have hB : b / 2 ^ 3 = b / 8 := by norm_num
  rw [hR, hG, hB]
  exact lor_decomp (r / 8) (by omega) (g / 4) (by omega) (b / 8) (by omega)

/-- The low and high bytes pushed by the packer recombine to the RGB565 word. -/
theorem rgb565_bytes_recombine (r g b : Nat) (hr : r < 256) (hg : g < 256) (hb : b < 256) :
    (rgb_to_rgb565 r g b &&& 0xFF) + 256 * ((rgb_to_rgb565 r g b >>> 8) &&& 0xFF) =
      rgb_to_rgb565 r g b := by
  rw [rgb_to_rgb565_eq r g b hr hg hb]
  set v := r / 8 * 2048 + g / 4 * 32 + b / 8 with hv
  have hvlt : v < 65536 := by
    have h1 : r / 8 < 32 := by omega
    have h2 : g / 4 < 64 := by omega
    have h3 : b / 8 < 32 := by omega
    calc v ≤ 31 * 2048 + 63 * 32 + 31 := by
            apply Nat.add_le_add
            apply Nat.add_le_add
            · exact Nat.mul_le_mul_right 2048 (by omega)
            · exact Nat.mul_le_mul_right 32 (by omega)
            · omega
      _ < 65536 := by norm_num
  have hsplit : v = 256 * (v / 256) + v % 256 := by omega
  have hhi : v / 256 < 256 := by omega
  have hlo : v % 256 < 256 := by omega
  rw [Nat.shiftRight_eq_div_pow]
  have h8 : v / 2 ^ 8 = v / 256 := by norm_num
  rw [h8, and255_small (v / 256) hhi]
  conv_lhs => rw [hsplit]
  rw [and255_split (v / 256) hhi (v % 256) hlo]
  omega

/-- The two bytes of the pixel at column-position `col`, emission position `p`
of a chunk, in terms of the source buffer. -/
theorem chunk_pixel_bytes (img : Nat → Nat) (start w col p : Nat)
    (hcol : col < w) (hp : p < HEIGHT) :
    (chunkBytes img start w)[(col * HEIGHT + p) * 2]? =
      some (rgb_to_rgb565
        (img (((HEIGHT - 1 - p) * WIDTH + (start + col)) * 3))
        (img (((HEIGHT - 1 - p) * WIDTH + (start + col)) * 3 + 1))
        (img (((HEIGHT - 1 - p) * WIDTH + (start + col)) * 3 + 2)) &&& 0xFF) ∧
    (chunkBytes img start w)[(col * HEIGHT + p) * 2 + 1]? =
      some ((rgb_to_rgb565
        (img (((HEIGHT - 1 - p) * WIDTH + (start + col)) * 3))
        (img (((HEIGHT - 1 - p) * WIDTH + (start + col)) * 3 + 1))
        (img (((HEIGHT - 1 - p) * WIDTH + (start + col)) * 3 + 2)) >>> 8) &&& 0xFF) := by
  have h0 := chunkBytes_getElem? img start w col p 0 hcol hp (by omega)
  have h1 := chunkBytes_getElem? img start w col p 1 hcol hp (by omega)
  constructor
  · rw [show (col * HEIGHT + p) * 2 = (col * HEIGHT + p) * 2 + 0 from rfl, h0]
    simp [pixelBytes]
  · rw [h1]
    simp [pixelBytes]

/-! ## Claim C1: chunk sizes and emission order of the packer -/

/-- C1: for every 320x240 RGB buffer, `image_to_rgb565_chunks` returns three
chunks of byte lengths 57600, 57600, 38400 (concatenation 153600); within band
`b` (column bands of widths 120, 120, 80 starting at 0, 120, 240) the pixel at
column-position `col` and emission position `p` (bottom-to-top: buffer row
`HEIGHT - 1 - p`) occupies byte offsets `(col * 240 + p) * 2` (low byte of the
RGB565 word) and `+ 1` (high byte). -/
theorem image_chunks_spec (img : Nat → Nat) :
    ((image_to_rgb565_chunks img).map List.length = [57600, 57600, 38400] ∧
      (image_to_rgb565_chunks img).flatten.length = 153600) ∧
    (∀ b, b < 3 → ∀ col, col < chunkWidth b → ∀ p, p < HEIGHT →
      ((image_to_rgb565_chunks img).getD b [])[(col * HEIGHT + p) * 2]? =
        some (rgb_to_rgb565
          (img (((HEIGHT - 1 - p) * WIDTH + (chunkStart b + col)) * 3))
          (img (((HEIGHT - 1 - p) * WIDTH + (chunkStart b + col)) * 3 + 1))
          (img (((HEIGHT - 1 - p) * WIDTH + (chunkStart b + col)) * 3 + 2)) &&& 0xFF) ∧
      ((image_to_rgb565_chunks img).getD b [])[(col * HEIGHT + p) * 2 + 1]? =
        some ((rgb_to_rgb565
          (img (((HEIGHT - 1 - p) * WIDTH + (chunkStart b + col)) * 3))
          (img (((HEIGHT - 1 - p) * WIDTH + (chunkStart b + col)) * 3 + 1))
          (img (((HEIGHT - 1 - p) * WIDTH + (chunkStart b + col)) * 3 + 2)) >>> 8) &&& 0xFF)) := by
  constructor
  · constructor
    · simp [image_to_rgb565_chunks, chunkBytes_length]
    · simp [image_to_rgb565_chunks, List.flatten, chunkBytes_length]
  · intro b hb col hcol p hp
    interval_cases b
    · simpa [image_to_rgb565_chunks, chunkStart, chunkWidth] using
        chunk_pixel_bytes img 0 120 col p (by simpa [chunkWidth] using hcol) hp
    · simpa [image_to_rgb565_chunks, chunkStart, chunkWidth] using
        chunk_pixel_bytes img 120 120 col p (by simpa [chunkWidth] using hcol) hp
    · simpa [image_to_rgb565_chunks, chunkStart, chunkWidth] using
        chunk_pixel_bytes img 240 80 col p (by simpa [chunkWidth] using hcol) hp

/-- Witness for C1 at a concrete buffer and position. -/
theorem image_chunks_spec_witness :
    ((image_to_rgb565_chunks (fun _ => 0)).map List.length = [57600, 57600, 38400] ∧
      (image_to_rgb565_chunks (fun _ => 0)).flatten.length = 153600) ∧
    ((image_to_rgb565_chunks (fun _ => 0)).getD 0 [])[(0 * HEIGHT + 0) * 2]? =
      some (rgb_to_rgb565 ((fun _ => 0) (((HEIGHT - 1 - 0) * WIDTH + (chunkStart 0 + 0)) * 3))
        ((fun _ => 0) (((HEIGHT - 1 - 0) * WIDTH + (chunkStart 0 + 0)) * 3 + 1))
        ((fun _ => 0) (((HEIGHT - 1 - 0) * WIDTH + (chunkStart 0 + 0)) * 3 + 2)) &&& 0xFF) :=
  ⟨(image_chunks_spec (fun _ => 0)).1,
    ((image_chunks_spec (fun _ => 0)).2 0 (by decide) 0 (by decide) 0 (by decide)).1⟩

/-! ## Claim C3: the (8,16,24) corner pixel -/

/-- Bytes 478/479 of chunk 0 hold the low/high byte of the RGB565 word of the
buffer pixel at row 0, column 0 (the last pixel of column 0 in chunk 0). -/
theorem chunk0_corner (img : Nat → Nat) (h0 : img 0 = 8) (h1 : img 1 = 16)
    (h2 : img 2 = 24) :
    ((image_to_rgb565_chunks img).getD 0 [])[478]? = some 0x83 ∧
    ((image_to_rgb565_chunks img).getD 0 [])[479]? = some 0x08 := by
  have h := chunk_pixel_bytes img 0 120 0 239 (by omega) (by simp [HEIGHT])
  simp only [HEIGHT, WIDTH] at h
  norm_num at h
  rw [h0, h1, h2] at h
  have e1 : rgb_to_rgb565 8 16 24 &&& 0xFF = 0x83 := by decide
  have e2 : (rgb_to_rgb565 8 16 24 >>> 8) &&& 0xFF = 0x08 := by decide
  rw [e1, e2] at h
  have hg : (image_to_rgb565_chunks img).getD 0 [] = chunkBytes img 0 120 := rfl
  rw [hg]
  exact h

def imgCorner : Nat → Nat := fun k =>
  if k = 0 then 8 else if k = 1 then 16 else if k = 2 then 24 else 0

/-- C3 counterexample: for a buffer whose pixel (0,0) is (8,16,24), the low byte
at offset 478 of chunk 0 is NOT 0x43: the claimed word 0x0843 mis-evaluates the
formula, which actually yields 0x0883 (green field 16 >> 2 = 4, shifted to
0x80, not 0x40). -/
theorem corner_pixel_counterexample :
    imgCorner 0 = 8 ∧ imgCorner 1 = 16 ∧ imgCorner 2 = 24 ∧
    ((image_to_rgb565_chunks imgCorner).getD 0 [])[478]? ≠ some 0x43 := by
  refine ⟨rfl, rfl, rfl, ?_⟩
  have h := chunk0_corner imgCorner rfl rfl rfl
  rw [h.1]
  simp

/-- C3 amended: the pixel at row 0, column 0 lands at byte offset 478 of chunk
0 (the last pixel of column 0), and the two bytes there are 0x83 then 0x08 -
the little-endian encoding of 0x0883, which is what the spec's own formula
yields on (8,16,24). -/
theorem corner_pixel_amended (img : Nat → Nat) (h0 : img 0 = 8) (h1 : img 1 = 16)
    (h2 : img 2 = 24) :
    ((image_to_rgb565_chunks img).getD 0 [])[478]? = some 0x83 ∧
    ((image_to_rgb565_chunks img).getD 0 [])[479]? = some 0x08 ∧
    rgb_to_rgb565 8 16 24 = 0x0883 :=
  ⟨(chunk0_corner img h0 h1 h2).1, (chunk0_corner img h0 h1 h2).2, by decide⟩

/-- Witness for the amended C3 at a concrete buffer. -/
theorem corner_pixel_amended_witness :
    ((image_to_rgb565_chunks imgCorner).getD 0 [])[478]? = some 0x83 :=
  (corner_pixel_amended imgCorner rfl rfl rfl).1

/-! ## Claim C2: invertibility of the packing -/

/-- Inverse of the packer's emission order, built by reversing the spec's §4.1
permutation (band of the pixel's column, column-major offset inside the band,
bottom-to-top row position) and decoding the three RGB565 fields of the
little-endian word (r = w >> 11 << 3, g = (w >> 5 & 0x3F) << 2,
b = (w & 0x1F) << 3, written with division and remainder). -/
def unpack_chunks (chunks : List (List Nat)) (i : Nat) : Nat :=
  let pix := i / 3
  let ch := i % 3
  let row := pix / WIDTH
  let colG := pix % WIDTH
  let start := if colG < 120 then 0 else if colG < 240 then 120 else 240
  let band := if colG < 120 then 0 else if colG < 240 then 1 else 2
  let c := chunks.getD band []
  let off := ((colG - start) * HEIGHT + (HEIGHT - 1 - row)) * 2
  let w := c.getD off 0 + 256 * c.getD (off + 1) 0
  if ch = 0 then w / 2048 * 8
  else if ch = 1 then w / 32 % 64 * 4
  else w % 32 * 8

theorem chunkBytes_getD (img : Nat → Nat) (start w col p δ : Nat)
    (hcol : col < w) (hp : p < HEIGHT) (hδ : δ < 2) :
    (chunkBytes img start w).getD ((col * HEIGHT + p) * 2 + δ) 0 =
      (pixelBytes img (start + col) p).getD δ 0 := by
  rw [List.getD_eq_getElem?_getD, List.getD_eq_getElem?_getD,
    chunkBytes_getElem? img start w col p δ hcol hp hδ]

/-- Reading back the two bytes of pixel `pix` from its chunk recombines to the
RGB565 word of that pixel. -/
theorem packed_word (img : Nat → Nat) (hv : ∀ k, img k < 256) (pix : Nat)
    (hpix : pix < 76800) (start w : Nat) (hstart : start ≤ pix % WIDTH)
    (hw : pix % WIDTH - start < w) :
    (chunkBytes img start w).getD
        (((pix % WIDTH - start) * HEIGHT + (HEIGHT - 1 - pix / WIDTH)) * 2) 0 +
      256 * (chunkBytes img start w).getD
        (((pix % WIDTH - start) * HEIGHT + (HEIGHT - 1 - pix / WIDTH)) * 2 + 1) 0 =
      rgb_to_rgb565 (img (pix * 3)) (img (pix * 3 + 1)) (img (pix * 3 + 2)) := by
  have hrow : pix / WIDTH < HEIGHT := by
    unfold WIDTH HEIGHT at *
    omega
  have hp : HEIGHT - 1 - pix / WIDTH < HEIGHT := by
    generalize pix / WIDTH = t
    unfold HEIGHT
    omega
  have h0 := chunkBytes_getD img start w (pix % WIDTH - start)
    (HEIGHT - 1 - pix / WIDTH) 0 hw hp (by omega)
  have h1 := chunkBytes_getD img start w (pix % WIDTH - start)
    (HEIGHT - 1 - pix / WIDTH) 1 hw hp (by omega)
  have hcol : start + (pix % WIDTH - start) = pix % WIDTH := by omega
  rw [hcol] at h0 h1
  have hflip : HEIGHT - 1 - (HEIGHT - 1 - pix / WIDTH) = pix / WIDTH := by
    have h' := hrow
    revert h'
    generalize pix / WIDTH = t
    unfold HEIGHT
    omega
  have hidx : (pix / WIDTH * WIDTH + pix % WIDTH) * 3 = pix * 3 := by
    have hdm : pix / WIDTH * WIDTH + pix % WIDTH = pix := by
      unfold WIDTH
      omega
    rw [hdm]
  rw [show ((pix % WIDTH - start) * HEIGHT + (HEIGHT - 1 - pix / WIDTH)) * 2 =
    ((pix % WIDTH - start) * HEIGHT + (HEIGHT - 1 - pix / WIDTH)) * 2 + 0 from rfl,
    h0, h1]
  have hrec := rgb565_bytes_recombine (img (pix * 3)) (img (pix * 3 + 1))
    (img (pix * 3 + 2)) (hv _) (hv _) (hv _)
  simpa [pixelBytes, hflip, hidx] using hrec

/-- Unpacking returns every byte of the packed buffer up to RGB565 quantization:
red and blue bytes are truncated to multiples of 8, green bytes to multiples
of 4. -/
theorem unpack_pack (img : Nat → Nat) (hv : ∀ k, img k < 256) :
    ∀ i < 230400, unpack_chunks (image_to_rgb565_chunks img) i =
      if i % 3 = 0 then img i / 8 * 8
      else if i % 3 = 1 then img i / 4 * 4
      else img i / 8 * 8 := by
  intro i hi
  have hpix : i / 3 < 76800 := by omega
  have h3 : i % 3 = 0 ∨ i % 3 = 1 ∨ i % 3 = 2 := by omega
  have hcolG : i / 3 % WIDTH < 320 := by
    unfold WIDTH
    omega
  rcases Nat.lt_or_ge (i / 3 % WIDTH) 120 with hb1 | hb1
  · -- band 0: columns 0..119
    have hc0 : (image_to_rgb565_chunks img).getD 0 [] = chunkBytes img 0 120 := rfl
    have hW := packed_word img hv (i / 3) hpix 0 120 (Nat.zero_le _) (by omega)
    simp only [unpack_chunks, hb1, if_true, hc0, Nat.sub_zero]
    simp only [Nat.sub_zero] at hW
    rw [hW]
    rw [rgb_to_rgb565_eq _ _ _ (hv _) (hv _) (hv _)]
    rcases h3 with h3 | h3 | h3 <;> simp only [h3] <;> norm_num
    · have hi0 : i / 3 * 3 = i := by omega
      rw [hi0]
      have b1 := hv i
      have b2 := hv (i + 1)
      have b3 := hv (i + 2)
      omega
    · have hi1 : i / 3 * 3 + 1 = i := by omega
      rw [hi1]
      have b1 := hv (i / 3 * 3)
      have b2 := hv i
      have b3 := hv (i / 3 * 3 + 2)
      omega
    · have hi2 : i / 3 * 3 + 2 = i := by omega
      rw [hi2]
      have b1 := hv (i / 3 * 3)
      have b2 := hv (i / 3 * 3 + 1)
      have b3 := hv i
      omega
  · rcases Nat.lt_or_ge (i / 3 % WIDTH) 240 with hb2 | hb2
    · -- band 1: columns 120..239
      have hn1 : ¬ (i / 3 % WIDTH < 120) := by omega
      have hc1 : (image_to_rgb565_chunks img).getD 1 [] = chunkBytes img 120 120 := rfl
      have hW := packed_word img hv (i / 3) hpix 120 120 hb1 (by omega)
      simp only [unpack_chunks, hn1, hb2, if_true, if_false, hc1]
      rw [hW]
      rw [rgb_to_rgb565_eq _ _ _ (hv _) (hv _) (hv _)]
      rcases h3 with h3 | h3 | h3 <;> simp only [h3] <;> norm_num
      · have hi0 : i / 3 * 3 = i := by omega
        rw [hi0]
        have b1 := hv i
        have b2 := hv (i + 1)
        have b3 := hv (i + 2)
        omega
      · have hi1 : i / 3 * 3 + 1 = i := by omega
        rw [hi1]
        have b1 := hv (i / 3 * 3)
        have b2 := hv i
        have b3 := hv (i / 3 * 3 + 2)
        omega
      · have hi2 : i / 3 * 3 + 2 = i := by omega
        rw [hi2]
        have b1 := hv (i / 3 * 3)
        have b2 := hv (i / 3 * 3 + 1)
        have b3 := hv i
        omega
    · -- band 2: columns 240..319
      have hn1 : ¬ (i / 3 % WIDTH < 120) := by omega
      have hn2 : ¬ (i / 3 % WIDTH < 240) := by omega
      have hc2 : (image_to_rgb565_chunks img).getD 2 [] = chunkBytes img 240 80 := rfl
      have hW := packed_word img hv (i / 3) hpix 240 80 hb2 (by omega)
      simp only [unpack_chunks, hn1, hn2, if_false, hc2]
      rw [hW]
      rw [rgb_to_rgb565_eq _ _ _ (hv _) (hv _) (hv _)]
      rcases h3 with h3 | h3 | h3 <;> simp only [h3] <;> norm_num
      · have hi0 : i / 3 * 3 = i := by omega
        rw [hi0]
        have b1 := hv i
        have b2 := hv (i + 1)
        have b3 := hv (i + 2)
        omega
      · have hi1 : i / 3 * 3 + 1 = i := by omega
        rw [hi1]
        have b1 := hv (i / 3 * 3)
        have b2 := hv i
        have b3 := hv (i / 3 * 3 + 2)
        omega
      · have hi2 : i / 3 * 3 + 2 = i := by omega
        rw [hi2]
        have b1 := hv (i / 3 * 3)
        have b2 := hv (i / 3 * 3 + 1)
        have b3 := hv i
        omega

def imgOne : Nat → Nat := fun k => if k = 0 then 1 else 0

/-- C2 counterexample: the claim fails on the valid buffer whose first byte is
1 (red of pixel (0,0)).  RGB565 drops the low three red bits, so reversing the
emission order yields 0 at index 0, not the original byte 1; no unpacking can
restore it (the all-zero buffer packs to the very same chunks). -/
theorem pack_roundtrip_counterexample :
    (∀ k, imgOne k < 256) ∧ (0 : Nat) < 230400 ∧
    unpack_chunks (image_to_rgb565_chunks imgOne) 0 ≠ imgOne 0 := by
  have hv : ∀ k, imgOne k < 256 := by
    intro k
    unfold imgOne
    split <;> norm_num
  refine ⟨hv, by norm_num, ?_⟩
  have h := unpack_pack imgOne hv 0 (by norm_num)
  norm_num [imgOne] at h ⊢
  omega

/-- C2 amended: reversing the band/column/bottom-to-top emission order restores
every byte of the buffer up to RGB565 quantization; the restoration is exact
for every valid buffer that is already RGB565-quantized (red and blue bytes
multiples of 8, green bytes multiples of 4). -/
theorem pack_unpack_quantized (img : Nat → Nat) (hv : ∀ k, img k < 256)
    (hq : ∀ k, (k % 3 = 0 → img k % 8 = 0) ∧ (k % 3 = 1 → img k % 4 = 0) ∧
      (k % 3 = 2 → img k % 8 = 0)) :
    ∀ i < 230400, unpack_chunks (image_to_rgb565_chunks img) i = img i := by
  intro i hi
  have h := unpack_pack img hv i hi
  rcases hq i with ⟨q0, q1, q2⟩
  have h3 : i % 3 = 0 ∨ i % 3 = 1 ∨ i % 3 = 2 := by omega
  rcases h3 with h3 | h3 | h3 <;> simp only [h3] at h <;> norm_num at h <;> rw [h]
  · have := q0 h3
    omega
  · have := q1 h3
    omega
  · have := q2 h3
    omega

/-- Witness for the amended C2 on the constant quantized buffer 8. -/
theorem pack_unpack_quantized_witness :
    unpack_chunks (image_to_rgb565_chunks (fun _ => 8)) 0 = 8 :=
  pack_unpack_quantized (fun _ => 8) (fun _ => by norm_num)
    (fun _ => ⟨fun _ => by norm_num, fun _ => by norm_num, fun _ => by norm_num⟩)
    0 (by norm_num)

/-! ## USB BOT transport (CLcdDriver.cpp lines 1206-1341)

`send_scsi_command` is embedded over an explicit exchange environment giving
the outcome of each `libusb_bulk_transfer` call: its return code, the reported
transferred count, and the bytes the device delivers.  Two C++ facts the
embedding makes explicit:
* `std::move` of a `std::vector` leaves the source vector empty, so the second
  `result.data = std::move(data_in);` (line 1311) assigns the empty moved-from
  vector (the first move is at line 1280);
* `struct ScsiResult` (CLcdDriver.h lines 231-236) has no default member
  initializers, so the `blktrans` value returned on a CBW write failure carries
  an indeterminate `status` byte, supplied here as `uninitStatus`. -/

structure ScsiResult where
  ok : Bool
  status : Nat
  data : List Nat
deriving DecidableEq, Repr

structure BulkIO where
  rc : Int
  transferred : Nat
deriving DecidableEq, Repr

structure UsbExchange where
  cbwIO : BulkIO
  dataIO : BulkIO
  dataBytes : List Nat
  cswIO : BulkIO
  cswBytes : List Nat
  uninitStatus : Nat
deriving DecidableEq, Repr

/-- Content of a `std::vector` buffer of size `n`, zero-filled by `resize` and
then overwritten from the start with the delivered bytes. -/
def padTo (n : Nat) (l : List Nat) : List Nat :=
  l.take n ++ List.replicate (n - l.length) 0

/-- The 31-byte CBW built at lines 1214-1238: "USBC", little-endian tag,
little-endian expected length, flags (0x80 = IN), LUN 0, CDB length, CDB
zero-padded to 16 bytes. -/
def buildCBW (cdb : List Nat) (tag dataLen : Nat) (dirIn : Bool) : List Nat :=
  [0x55, 0x53, 0x42, 0x43,
   tag &&& 0xFF, (tag >>> 8) &&& 0xFF, (tag >>> 16) &&& 0xFF, (tag >>> 24) &&& 0xFF,
   dataLen &&& 0xFF, (dataLen >>> 8) &&& 0xFF, (dataLen >>> 16) &&& 0xFF,
   (dataLen >>> 24) &&& 0xFF,
   if dirIn then 0x80 else 0x00,
   0x00,
   cdb.length % 256] ++ cdb ++ List.replicate (16 - cdb.length) 0

/-- Lines 1221-1222, `if (tag == 0) tag = TAG++;` with `uint32_t TAG`: the tag
actually used and the new counter value. -/
def resolveTag (tag TAG : Nat) : Nat × Nat :=
  if tag = 0 then (TAG, (TAG + 1) % 2 ^ 32) else (tag, TAG)

def send_scsi_command (ex : UsbExchange) (cdb data_out : List Nat)
    (data_in_len : Nat) (tag TAG : Nat) : ScsiResult × Nat :=
  let t := resolveTag tag TAG
  let data_len := if data_in_len ≠ 0 then data_in_len else data_out.length
  let cbw := buildCBW cdb t.1 data_len (data_in_len ≠ 0)
  if ex.cbwIO.rc ≠ 0 ∨ ex.cbwIO.transferred ≠ cbw.length then
    ({ ok := false, status := ex.uninitStatus, data := [] }, t.2)
  else if data_in_len ≠ 0 ∧ ex.dataIO.rc ≠ 0 then
    ({ ok := false, status := 2, data := [] }, t.2)
  else if data_in_len = 0 ∧ data_out ≠ [] ∧ ex.dataIO.rc ≠ 0 then
    ({ ok := false, status := 2, data := [] }, t.2)
  else
    let data_in := if data_in_len ≠ 0 then padTo data_in_len ex.dataBytes else []
    let resultData := data_in
    let cswBuf := padTo 13 ex.cswBytes
    if ex.cswIO.rc ≠ 0 ∨ ex.cswIO.transferred ≠ 13 ∨
        cswBuf.take 4 ≠ [0x55, 0x53, 0x42, 0x53] then
      ({ ok := false, status := 2, data := resultData }, t.2)
    else
      let status := cswBuf.getD 12 0
      ({ ok := status == 0, status := status, data := [] }, t.2)

theorem buildCBW_length (cdb : List Nat) (tag dataLen : Nat) (dirIn : Bool)
    (h : cdb.length ≤ 16) : (buildCBW cdb tag dataLen dirIn).length = 31 := by
  simp [buildCBW]
  omega




def exInquiryOk : UsbExchange :=
  { cbwIO := ⟨0, 31⟩, dataIO := ⟨0, 36⟩, dataBytes := List.replicate 36 0x41,
    cswIO := ⟨0, 13⟩,
    cswBytes := [0x55, 0x53, 0x42, 0x53, 0x60, 0xF5, 0x8B, 0x62, 0, 0, 0, 0, 0],
    uninitStatus := 0 }

/-- C5 (code bug): on a fully successful INQUIRY round-trip - 31-byte CBW
accepted, 36 requested bytes delivered in the data-in phase, well-formed CSW
with the echoed tag 0x628bf560 and status 0 - `send_scsi_command` returns
ok = true and status = 0, but its `data` is EMPTY rather than the 36 delivered
bytes: `result.data` is move-assigned from `data_in` twice (lines 1280 and
1311); after the first move the vector is empty, so the second assignment
discards the data.  The second conjunct shows the data phase did deliver the
36 bytes into the buffer. -/
theorem send_scsi_inquiry_success_drops_data :
    (send_scsi_command exInquiryOk [0x12, 0, 0, 0, 36, 0] [] 36 0x628bf560 7).1 =
      { ok := true, status := 0, data := [] } ∧
    padTo 36 exInquiryOk.dataBytes = List.replicate 36 0x41 := by
  constructor
  · decide
  · decide

def exCbwFail : UsbExchange :=
  { cbwIO := ⟨-1, 0⟩, dataIO := ⟨0, 0⟩, dataBytes := [], cswIO := ⟨0, 13⟩,
    cswBytes := [0x55, 0x53, 0x42, 0x53, 0, 0, 0, 0, 0, 0, 0, 0, 0],
    uninitStatus := 0 }

def exBadCsw : UsbExchange :=
  { cbwIO := ⟨0, 31⟩, dataIO := ⟨0, 18⟩, dataBytes := List.replicate 18 0x41,
    cswIO := ⟨0, 13⟩, cswBytes := List.replicate 13 0, uninitStatus := 0 }

/-- C6 counterexample: (1) a CBW-write I/O error returns the
default-constructed `ScsiResult` whose `status` is the indeterminate
uninitialized byte (0 in this concrete run), not 2; (2) a bad-signature CSW
after a successful 18-byte data-in returns that data, not an empty vector. -/
theorem send_scsi_error_counterexample :
    (send_scsi_command exCbwFail [0, 0, 0, 0, 0, 0] [] 0 1 7).1 =
      { ok := false, status := 0, data := [] } ∧
    (send_scsi_command exBadCsw [0x03, 0, 0, 0, 18, 0] [] 18 1 7).1 =
      { ok := false, status := 2, data := List.replicate 18 0x41 } ∧
    List.replicate 18 0x41 ≠ ([] : List Nat) := by
  refine ⟨by decide, by decide, by decide⟩

/-- C6 amended: data-phase I/O errors (either direction) return
{ok: false, status: 2} with empty data, and a short or bad-signature CSW read
returns {ok: false, status: 2}; but a CBW-write error returns the
uninitialized status byte (not necessarily 2), and the CSW-failure path
returns the data-in buffer rather than empty data. -/
theorem send_scsi_error_paths (ex : UsbExchange) (cdb data_out : List Nat)
    (data_in_len tag TAG : Nat) (hcdb : cdb.length ≤ 16) :
    ((ex.cbwIO.rc ≠ 0 ∨ ex.cbwIO.transferred ≠ 31) →
      (send_scsi_command ex cdb data_out data_in_len tag TAG).1 =
        { ok := false, status := ex.uninitStatus, data := [] }) ∧
    (ex.cbwIO.rc = 0 → ex.cbwIO.transferred = 31 → ex.dataIO.rc ≠ 0 →
      (data_in_len ≠ 0 ∨ data_out ≠ []) →
      (send_scsi_command ex cdb data_out data_in_len tag TAG).1 =
        { ok := false, status := 2, data := [] }) ∧
    (ex.cbwIO.rc = 0 → ex.cbwIO.transferred = 31 →
      (data_in_len ≠ 0 → ex.dataIO.rc = 0) → (data_out ≠ [] → ex.dataIO.rc = 0) →
      (ex.cswIO.rc ≠ 0 ∨ ex.cswIO.transferred ≠ 13 ∨
        (padTo 13 ex.cswBytes).take 4 ≠ [0x55, 0x53, 0x42, 0x53]) →
      (send_scsi_command ex cdb data_out data_in_len tag TAG).1 =
        { ok := false, status := 2,
          data := if data_in_len ≠ 0 then padTo data_in_len ex.dataBytes else [] }) := by
  have hlen : ∀ dl di, (buildCBW cdb (resolveTag tag TAG).1 dl di).length = 31 :=
    fun dl di => buildCBW_length cdb _ dl di hcdb
  refine ⟨?_, ?_, ?_⟩
  · intro h
    simp only [send_scsi_command, hlen]
    rw [if_pos h]
  · intro h1 h2 h3 h4
    simp only [send_scsi_command, hlen]
    rw [if_neg (by simp [h1, h2])]
    rcases Nat.eq_zero_or_pos data_in_len with hd | hd
    · rw [if_neg (by simp [hd]), if_pos ⟨hd, by tauto, h3⟩]
    · rw [if_pos ⟨by omega, h3⟩]
  · intro h1 h2 h3 h4 h5
    simp only [send_scsi_command, hlen]
    rw [if_neg (by simp [h1, h2])]
    rw [if_neg (by rintro ⟨ha, hb⟩; exact hb (h3 ha))]
    rw [if_neg (by rintro ⟨_, hb, hc⟩; exact hc (h4 hb))]
    rw [if_pos h5]

/-- The counter output of `send_scsi_command` is decided entirely by the
`if (tag == 0) tag = TAG++;` fragment, on every control path. -/
theorem send_scsi_snd (ex : UsbExchange) (cdb data_out : List Nat)
    (data_in_len tag TAG : Nat) :
    (send_scsi_command ex cdb data_out data_in_len tag TAG).2 =
      (resolveTag tag TAG).2 := by
  simp only [send_scsi_command]
  split_ifs <;> rfl

/-- C10: a call with an explicit nonzero tag leaves the process-wide
auto-tag counter `TAG` unchanged; a call with tag = 0 uses the current counter
value as its tag and increments the counter by exactly one (as a `uint32_t`,
i.e. modulo 2^32), so consecutive auto-assigned tags are consecutive
regardless of interleaved explicit-tag calls. -/
theorem send_scsi_tag_counter (ex : UsbExchange) (cdb data_out : List Nat)
    (data_in_len tag TAG : Nat) :
    (tag ≠ 0 → (send_scsi_command ex cdb data_out data_in_len tag TAG).2 = TAG) ∧
    (tag = 0 →
      (send_scsi_command ex cdb data_out data_in_len tag TAG).2 = (TAG + 1) % 2 ^ 32 ∧
      (resolveTag tag TAG).1 = TAG) := by
  rw [send_scsi_snd]
  constructor
  · intro h
    simp [resolveTag, h]
  · intro h
    simp [resolveTag, h]

/-- Witness for C10 at concrete calls. -/
theorem send_scsi_tag_counter_witness :
    (send_scsi_command exInquiryOk [0x12, 0, 0, 0, 36, 0] [] 36 5 7).2 = 7 ∧
    (send_scsi_command exInquiryOk [0x12, 0, 0, 0, 36, 0] [] 36 0 7).2 = (7 + 1) % 2 ^ 32 :=
  ⟨(send_scsi_tag_counter exInquiryOk [0x12, 0, 0, 0, 36, 0] [] 36 5 7).1 (by decide),
    ((send_scsi_tag_counter exInquiryOk [0x12, 0, 0, 0, 36, 0] [] 36 0 7).2 rfl).1⟩

/-- Witness for the amended C6 on a concrete CBW-write failure. -/
theorem send_scsi_error_paths_witness :
    (send_scsi_command exCbwFail [0, 0, 0, 0, 0, 0] [] 0 2 7).1 =
      { ok := false, status := exCbwFail.uninitStatus, data := [] } :=
  (send_scsi_error_paths exCbwFail [0, 0, 0, 0, 0, 0] [] 0 2 7 (by decide)).1
    (by decide)



structure SentCmd where
  cdb : List Nat
  dataOut : List Nat
  dataInLen : Nat
deriving DecidableEq, Repr

def mkImageCdb (idx len : Nat) : List Nat :=
  [0xF5, 0x01, 0x01, idx, 0, 0, 0, 0, 0, 0, 0, 0,
   len &&& 0xFF, (len >>> 8) &&& 0xFF, (len >>> 16) &&& 0xFF, (len >>> 24) &&& 0xFF]

def sendChunks (exs : Nat → UsbExchange) (chunks : List (List Nat))
    (idx TAG : Nat) : Bool × List SentCmd × Nat :=
  match chunks with
  | [] => (true, [], TAG)
  | c :: rest =>
    let cdb := mkImageCdb idx c.length
    let r := send_scsi_command (exs idx) cdb c 0 0 TAG
    if r.1.ok then
      let k := sendChunks exs rest (idx + 1) r.2
      (k.1, ⟨cdb, c, 0⟩ :: k.2.1, k.2.2)
    else (false, [⟨cdb, c, 0⟩], r.2)

def update_lcd_image (img : Nat → Nat) (dev : Option Unit)
    (exs : Nat → UsbExchange) (TAG : Nat) : Bool × List SentCmd × Nat :=
  match dev with
  | none => (false, [], TAG)
  | some _ => sendChunks exs (image_to_rgb565_chunks img) 0 TAG

def exchangePasses (ex : UsbExchange) : Prop :=
  ex.cbwIO.rc = 0 ∧ ex.cbwIO.transferred = 31 ∧ ex.dataIO.rc = 0 ∧
  ex.cswIO.rc = 0 ∧ ex.cswIO.transferred = 13 ∧
  (padTo 13 ex.cswBytes).take 4 = [0x55, 0x53, 0x42, 0x53] ∧
  (padTo 13 ex.cswBytes).getD 12 0 = 0

instance (ex : UsbExchange) : Decidable (exchangePasses ex) := by
  unfold exchangePasses
  infer_instance

theorem send_ok_iff (ex : UsbExchange) (cdb data_out : List Nat)
    (hcdb : cdb.length ≤ 16) (hne : data_out ≠ []) (TAG : Nat) :
    (send_scsi_command ex cdb data_out 0 0 TAG).1.ok = true ↔ exchangePasses ex := by
  have hlen : ∀ dl di, (buildCBW cdb (resolveTag 0 TAG).1 dl di).length = 31 :=
    fun dl di => buildCBW_length cdb _ dl di hcdb
  simp only [send_scsi_command, hlen]
  unfold exchangePasses
  split_ifs with h1 h2 h3 h4
  · simp only [Bool.false_eq_true, false_iff]
    tauto
  · tauto
  · simp only [Bool.false_eq_true, false_iff]
    tauto
  · simp only [Bool.false_eq_true, false_iff]
    tauto
  · simp only [beq_iff_eq]
    constructor
    · intro h
      refine ⟨by tauto, by tauto, by tauto, by tauto, by tauto, by tauto, h⟩
    · tauto



theorem mkImageCdb_length (idx len : Nat) : (mkImageCdb idx len).length = 16 := rfl

/-- C4: `update_lcd_image` sends at most three SCSI commands, one per chunk
strictly in index order 0, 1, 2; each command carries the 16-byte CDB
[0xF5, 0x01, 0x01, idx, 0 x 8, length as little-endian u32] (the three CDBs
are spelled out byte-for-byte), the chunk bytes as data-out and zero expected
data-in; it stops and returns false at the first exchange whose CSW does not
pass, and returns true (after exactly three commands) only when all three
pass. -/
theorem update_lcd_image_spec (img : Nat → Nat) (exs : Nat → UsbExchange) (TAG : Nat) :
    mkImageCdb 0 57600 =
      [0xF5, 0x01, 0x01, 0, 0, 0, 0, 0, 0, 0, 0, 0, 0x00, 0xE1, 0x00, 0x00] ∧
    mkImageCdb 1 57600 =
      [0xF5, 0x01, 0x01, 1, 0, 0, 0, 0, 0, 0, 0, 0, 0x00, 0xE1, 0x00, 0x00] ∧
    mkImageCdb 2 38400 =
      [0xF5, 0x01, 0x01, 2, 0, 0, 0, 0, 0, 0, 0, 0, 0x00, 0x96, 0x00, 0x00] ∧
    (¬ exchangePasses (exs 0) →
      (update_lcd_image img (some ()) exs TAG).1 = false ∧
      (update_lcd_image img (some ()) exs TAG).2.1 =
        [⟨mkImageCdb 0 57600, chunkBytes img 0 120, 0⟩]) ∧
    (exchangePasses (exs 0) → ¬ exchangePasses (exs 1) →
      (update_lcd_image img (some ()) exs TAG).1 = false ∧
      (update_lcd_image img (some ()) exs TAG).2.1 =
        [⟨mkImageCdb 0 57600, chunkBytes img 0 120, 0⟩,
         ⟨mkImageCdb 1 57600, chunkBytes img 120 120, 0⟩]) ∧
    (exchangePasses (exs 0) → exchangePasses (exs 1) → ¬ exchangePasses (exs 2) →
      (update_lcd_image img (some ()) exs TAG).1 = false ∧
      (update_lcd_image img (some ()) exs TAG).2.1 =
        [⟨mkImageCdb 0 57600, chunkBytes img 0 120, 0⟩,
         ⟨mkImageCdb 1 57600, chunkBytes img 120 120, 0⟩,
         ⟨mkImageCdb 2 38400, chunkBytes img 240 80, 0⟩]) ∧
    (exchangePasses (exs 0) → exchangePasses (exs 1) → exchangePasses (exs 2) →
      (update_lcd_image img (some ()) exs TAG).1 = true ∧
      (update_lcd_image img (some ()) exs TAG).2.1 =
        [⟨mkImageCdb 0 57600, chunkBytes img 0 120, 0⟩,
         ⟨mkImageCdb 1 57600, chunkBytes img 120 120, 0⟩,
         ⟨mkImageCdb 2 38400, chunkBytes img 240 80, 0⟩]) := by
  have l0 : (chunkBytes img 0 120).length = 57600 := by
    rw [chunkBytes_length]
  have l1 : (chunkBytes img 120 120).length = 57600 := by
    rw [chunkBytes_length]
  have l2 : (chunkBytes img 240 80).length = 38400 := by
    rw [chunkBytes_length]
  have ne0 : chunkBytes img 0 120 ≠ [] := by
    intro h
    rw [h] at l0
    simp at l0
  have ne1 : chunkBytes img 120 120 ≠ [] := by
    intro h
    rw [h] at l1
    simp at l1
  have ne2 : chunkBytes img 240 80 ≠ [] := by
    intro h
    rw [h] at l2
    simp at l2
  have ok0 : ∀ T, ((send_scsi_command (exs 0) (mkImageCdb 0 57600)
      (chunkBytes img 0 120) 0 0 T).1.ok = true) ↔ exchangePasses (exs 0) :=
    fun T => send_ok_iff _ _ _ (by rw [mkImageCdb_length]) ne0 T
  have ok1 : ∀ T, ((send_scsi_command (exs 1) (mkImageCdb 1 57600)
      (chunkBytes img 120 120) 0 0 T).1.ok = true) ↔ exchangePasses (exs 1) :=
    fun T => send_ok_iff _ _ _ (by rw [mkImageCdb_length]) ne1 T
  have ok2 : ∀ T, ((send_scsi_command (exs 2) (mkImageCdb 2 38400)
      (chunkBytes img 240 80) 0 0 T).1.ok = true) ↔ exchangePasses (exs 2) :=
    fun T => send_ok_iff _ _ _ (by rw [mkImageCdb_length]) ne2 T
  refine ⟨by decide, by decide, by decide, ?_, ?_, ?_, ?_⟩
  · intro hp0
    simp only [update_lcd_image, image_to_rgb565_chunks, sendChunks, l0, l1, l2,
      ok0, ok1, ok2]
    rw [if_neg hp0]
    exact ⟨rfl, rfl⟩
  · intro hp0 hp1
    simp only [update_lcd_image, image_to_rgb565_chunks, sendChunks, l0, l1, l2,
      ok0, ok1, ok2]
    rw [if_pos hp0, if_neg hp1]
    exact ⟨rfl, rfl⟩
  · intro hp0 hp1 hp2
    simp only [update_lcd_image, image_to_rgb565_chunks, sendChunks, l0, l1, l2,
      ok0, ok1, ok2]
    rw [if_pos hp0, if_pos hp1, if_neg hp2]
    exact ⟨rfl, rfl⟩
  · intro hp0 hp1 hp2
    simp only [update_lcd_image, image_to_rgb565_chunks, sendChunks, l0, l1, l2,
      ok0, ok1, ok2]
    rw [if_pos hp0, if_pos hp1, if_pos hp2]
    exact ⟨rfl, rfl⟩

def exFrameOk : UsbExchange :=
  { cbwIO := ⟨0, 31⟩, dataIO := ⟨0, 57600⟩, dataBytes := [], cswIO := ⟨0, 13⟩,
    cswBytes := [0x55, 0x53, 0x42, 0x53, 0, 0, 0, 0, 0, 0, 0, 0, 0],
    uninitStatus := 0 }

/-- Witness for C4 on an all-pass exchange environment. -/
theorem update_lcd_image_spec_witness :
    (update_lcd_image (fun _ => 0) (some ()) (fun _ => exFrameOk) 1).1 = true :=
  ((update_lcd_image_spec (fun _ => 0) (fun _ => exFrameOk) 1).2.2.2.2.2.2
    (by decide) (by decide) (by decide)).1



inductive UsbAction where
  | releaseInterface
  | closeHandle
  | setAutoDetach
  | claimInterface
  | resetDevice
deriving DecidableEq, Repr

structure UsbHostEnv where
  deviceFound : Bool
  claimRc : Int
  resetRc : Int
  releaseRc : Int
deriving DecidableEq, Repr

def open_dev (env : UsbHostEnv) : Option Unit :=
  if env.deviceFound then some () else none

def init_dev (env : UsbHostEnv) (prev : Option Unit) :
    Except String (Bool × List UsbAction) :=
  let pre : List UsbAction :=
    match prev with
    | some _ => [.releaseInterface, .closeHandle]
    | none => []
  match open_dev env with
  | none => .error "libusb_set_auto_detach_kernel_driver dereferences a null handle"
  | some _ =>
      .ok (true, pre ++ [.setAutoDetach, .releaseInterface, .claimInterface,
        .resetDevice])

/-- C7 (code bug): libusb's C API reports failure via return codes and never
throws, so every catch block in `init_dev` is dead code.  With the device
present but `libusb_claim_interface` failing (rc = -3), `init_dev` still
returns true (the claim's ClaimFailed => false never happens); with no
matching device, `open_dev` returns null and `init_dev` passes the null
handle to `libusb_set_auto_detach_kernel_driver` (a crash), instead of
returning false.  The close-before-reopen part does hold, as the third
conjunct's action trace shows. -/
theorem init_dev_bug :
    init_dev ⟨true, -3, 0, 0⟩ none =
      .ok (true, [.setAutoDetach, .releaseInterface, .claimInterface, .resetDevice]) ∧
    init_dev ⟨false, 0, 0, 0⟩ none =
      .error "libusb_set_auto_detach_kernel_driver dereferences a null handle" ∧
    init_dev ⟨true, 0, 0, 0⟩ (some ()) =
      .ok (true, [.releaseInterface, .closeHandle, .setAutoDetach,
        .releaseInterface, .claimInterface, .resetDevice]) :=
  ⟨rfl, rfl, rfl⟩

def mapSet (m : List (String × ℚ)) (k : String) (v : ℚ) : List (String × ℚ) :=
  if m.any (fun p => p.1 == k) then
    m.map (fun p => if p.1 == k then (k, v) else p)
  else m ++ [(k, v)]

def merge_info (info updated : List (String × ℚ)) : List (String × ℚ) :=
  updated.foldl (fun acc kv => mapSet acc kv.1 kv.2) info

def mapKeys (m : List (String × ℚ)) : List String := m.map (fun p => p.1)

structure FastReadings where
  cpu_percent : ℚ
  cpu_temp : ℚ
  cpu_freq : ℚ
  gpu : List ℚ
deriving DecidableEq

def poll_fast (rd : FastReadings) : List (String × ℚ) :=
  (if 0 < rd.cpu_percent ∧ rd.cpu_percent < 101 then
    [("cpu_percent", rd.cpu_percent)] else []) ++
  (if 15 < rd.cpu_temp ∧ rd.cpu_temp < 100 then [("cpu_temp", rd.cpu_temp)] else []) ++
  (if 0 < rd.cpu_freq then [("cpu_freq", rd.cpu_freq)] else []) ++
  (if 0 < rd.gpu.getD 0 0 ∧ rd.gpu.getD 0 0 < 101 then
    [("gpu_temp", rd.gpu.getD 0 0)] else []) ++
  (if -1 < rd.gpu.getD 1 0 then [("gpu_usage", rd.gpu.getD 1 0)] else []) ++
  (if 0 < rd.gpu.getD 2 0 then [("gpu_clock", rd.gpu.getD 2 0)] else []) ++
  (if 3 < rd.gpu.length ∧ -1 < rd.gpu.getD 3 0 then
    [("gpu_fan", rd.gpu.getD 3 0)] else [])

structure SlowReadings where
  cpu_count : ℚ
  disk : ℚ × ℚ
  mem : ℚ × ℚ
deriving DecidableEq

def poll_slow (rd : SlowReadings) : List (String × ℚ) :=
  [("cpu_count", rd.cpu_count)] ++
  (if 0 < rd.disk.1 then [("disk_percent", rd.disk.1)] else []) ++
  (if 0 < rd.disk.2 then [("disk_free_gb", rd.disk.2)] else []) ++
  (if 0 < rd.mem.1 then [("mem_percent", rd.mem.1)] else []) ++
  (if 0 < rd.mem.2 then [("mem_used_gb", rd.mem.2)] else [])

structure DetectReadings where
  cpu_percent : ℚ
  cpu_count : ℚ
  cpu_freq : ℚ
  has_hwmon : Bool
  cpu_temp : ℚ
  meminfo : Bool
  mem : ℚ × ℚ
  disk : ℚ × ℚ
  amd : Option (List ℚ)
  intel : Bool
  nvidia : Bool
deriving DecidableEq

def detect_available_metrics (rd : DetectReadings) : List String :=
  (if 0 < rd.cpu_percent then ["cpu_percent"] else []) ++
  (if 0 < rd.cpu_count then ["cpu_count"] else []) ++
  (if 0 < rd.cpu_freq then ["cpu_freq"] else []) ++
  (if rd.has_hwmon ∧ 0 < rd.cpu_temp ∧ rd.cpu_temp < 101 then ["cpu_temp"] else []) ++
  (if rd.meminfo then
    (if 0 < rd.mem.1 then ["mem_percent"] else []) ++
    (if 0 < rd.mem.2 then ["mem_used_gb"] else [])
   else []) ++
  (if 0 < rd.disk.1 then ["disk_percent"] else []) ++
  (if 0 < rd.disk.2 then ["disk_free_gb"] else []) ++
  (match rd.amd with
   | some st =>
     (if 0 < st.getD 0 0 ∧ st.getD 0 0 < 101 then ["gpu_temp"] else []) ++
     (if -1 < st.getD 1 0 then ["gpu_usage"] else []) ++
     (if -1 < st.getD 2 0 then ["gpu_clock"] else []) ++
     (if -1 < st.getD 3 0 then ["gpu_fan"] else [])
   | none =>
     if rd.intel then ["gpu_temp", "gpu_usage", "gpu_clock"]
     else if rd.nvidia then ["gpu_temp", "gpu_usage", "gpu_clock", "gpu_fan"]
     else [])

def initial_info (rd : DetectReadings) : List (String × ℚ) :=
  (detect_available_metrics rd).foldl (fun m k => mapSet m k 0) []

inductive PollStep where
  | fast (rd : FastReadings)
  | slow (rd : SlowReadings)

def stepOutput : PollStep → List (String × ℚ)
  | .fast rd => poll_fast rd
  | .slow rd => poll_slow rd

def run_poller (info : List (String × ℚ)) (steps : List PollStep) :
    List (String × ℚ) :=
  steps.foldl (fun m s => merge_info m (stepOutput s)) info

def rdDetectMin : DetectReadings :=
  { cpu_percent := 0, cpu_count := 4, cpu_freq := 0, has_hwmon := true,
    cpu_temp := 0, meminfo := false, mem := (0, 0), disk := (0, 0),
    amd := none, intel := false, nvidia := false }

def rdFastTemp : FastReadings :=
  { cpu_percent := 0, cpu_temp := 50, cpu_freq := 0, gpu := [0, -1, 0, -1] }

/-- C8 counterexample: with a startup environment where the hwmon tree
exists but the CPU temperature reads 0 (not detected: detection requires a
value in (0, 101)), only cpu_count is registered; one later fast poll that
reads 50 degrees inserts the cpu_temp key through `_merge_info`, so the
snapshot key set (= `get_available_metrics`) grows after `start()`. -/
theorem poller_keys_grow_counterexample :
    mapKeys (initial_info rdDetectMin) = ["cpu_count"] ∧
    mapKeys (run_poller (initial_info rdDetectMin) [PollStep.fast rdFastTemp]) =
      ["cpu_count", "cpu_temp"] := by
  constructor
  · decide
  · decide

theorem mapKeys_overwrite (m : List (String × ℚ)) (k : String) (v : ℚ) :
    mapKeys (m.map (fun p => if p.1 == k then (k, v) else p)) = mapKeys m := by
  unfold mapKeys
  induction m with
  | nil => rfl
  | cons p t ih =>
      simp only [List.map_cons]
      have h1 : (if p.1 == k then (k, v) else p).1 = p.1 := by
        by_cases hb : p.1 == k
        · have hk : p.1 = k := by simpa using hb
          simp [hb, hk]
        · simp [hb]
      rw [h1, ih]

theorem mapKeys_mapSet (m : List (String × ℚ)) (k : String) (v : ℚ) :
    mapKeys (mapSet m k v) = mapKeys m ∨
    mapKeys (mapSet m k v) = mapKeys m ++ [k] := by
  unfold mapSet
  split
  · left
    exact mapKeys_overwrite m k v
  · right
    simp [mapKeys]

theorem merge_info_keys_mono (upd : List (String × ℚ)) :
    ∀ info k, k ∈ mapKeys info → k ∈ mapKeys (merge_info info upd) := by
  induction upd with
  | nil => intro info k h; exact h
  | cons u t ih =>
      intro info k h
      have : merge_info info (u :: t) = merge_info (mapSet info u.1 u.2) t := rfl
      rw [this]
      apply ih
      rcases mapKeys_mapSet info u.1 u.2 with he | he <;> rw [he]
      · exact h
      · exact List.mem_append_left _ h

theorem run_poller_keys_mono (steps : List PollStep) :
    ∀ info k, k ∈ mapKeys info → k ∈ mapKeys (run_poller info steps) := by
  induction steps with
  | nil => intro info k h; exact h
  | cons s t ih =>
      intro info k h
      have : run_poller info (s :: t) = run_poller (merge_info info (stepOutput s)) t := rfl
      rw [this]
      exact ih _ k (merge_info_keys_mono (stepOutput s) info k h)

/-- C8 amended: the snapshot key set never shrinks - every key present
after detection (or added by a later merge) is present in every subsequent
snapshot, because `_merge_info` only inserts or overwrites - but it can grow
when a poll yields a plausible value for a metric that was not detected at
startup. -/
theorem poller_keys_never_shrink (rd : DetectReadings) (steps : List PollStep)
    (k : String) (hk : k ∈ mapKeys (initial_info rd)) :
    k ∈ mapKeys (run_poller (initial_info rd) steps) :=
  run_poller_keys_mono steps (initial_info rd) k hk

/-- Witness for the amended C8. -/
theorem poller_keys_never_shrink_witness :
    "cpu_count" ∈ mapKeys (run_poller (initial_info rdDetectMin)
      [PollStep.fast rdFastTemp]) :=
  poller_keys_never_shrink rdDetectMin [PollStep.fast rdFastTemp] "cpu_count"
    (by decide)



structure Mat where
  rows : Nat
  cols : Nat
  channels : Nat
  data : List Nat
deriving DecidableEq, Repr

def Mat.isEmpty (m : Mat) : Bool := m.rows == 0 || m.cols == 0

def emptyMat : Mat := ⟨0, 0, 0, []⟩

def gradientVal (y : Nat) : Nat := min 255 (20 + y * 40 / 240 + y % 3 - 1)

/-- Pixel data of the synthetic gradient (`create_default_background`, lines
1429-1448): 240 rows of 320 BGR pixels `(val, val/2, val)`. -/
def gradientData : List Nat :=
  (List.range 240).flatMap (fun y =>
    (List.range 320).flatMap (fun _ =>
      [gradientVal y, gradientVal y / 2, gradientVal y]))

def create_default_background (cached : Mat) : Mat :=
  if cached.isEmpty then ⟨240, 320, 3, gradientData⟩ else cached

structure CvOps where
  resize : Mat → Nat → Nat → Mat
  blendBGRA : Mat → Mat → Mat

structure FsEnv where
  imageExists : Bool
  imageMtime : Int
  decodedImage : Mat
  videoFrame : Mat

structure BgState where
  static_bg : Mat
  static_bg_path : String
  static_bg_mtime : Int
  has_alpha : Bool
  default_bg : Mat
  video_path_open : Option String

def initialBgState : BgState := ⟨emptyMat, "", 0, false, emptyMat, none⟩

def load_static_background (cv : CvOps) (env : FsEnv) (st : BgState)
    (background_path : String) : Mat × BgState :=
  if background_path = "" ∨ env.imageExists = false then (emptyMat, st)
  else if st.static_bg.isEmpty || st.static_bg_path != background_path ||
      st.static_bg_mtime != env.imageMtime then
    let img := env.decodedImage
    if img.isEmpty then (emptyMat, st)
    else
      let resized := cv.resize img 320 240
      (resized,
        { st with
          static_bg := resized
          static_bg_path := background_path
          static_bg_mtime := env.imageMtime
          has_alpha := img.channels == 4 })
  else (st.static_bg, st)

def pathExt (s : String) : String :=
  let name := (s.splitOn "/").getLastD ""
  let parts := name.splitOn "."
  if parts.length ≤ 1 then ""
  else if parts.length = 2 ∧ parts.getD 0 "" = "" then ""
  else "." ++ (parts.getLastD "").toLower

def compose_with_video (cv : CvOps) (argb video : Mat) : Mat :=
  if argb.isEmpty || video.isEmpty then argb
  else
    let resized :=
      if video.rows ≠ argb.rows ∨ video.cols ≠ argb.cols then
        cv.resize video argb.cols argb.rows
      else video
    cv.blendBGRA argb resized

def get_background (cv : CvOps) (env : FsEnv) (st : BgState)
    (video_path image_path : String) : Mat × BgState :=
  let r1 :=
    if image_path ≠ "" then load_static_background cv env st image_path
    else (emptyMat, st)
  let img := r1.1
  let ext := pathExt video_path
  let isVid := video_path ≠ "" ∧
    (ext = ".mp4" ∨ ext = ".avi" ∨ ext = ".mov" ∨ ext = ".mkv")
  let r2 :=
    if isVid then (env.videoFrame, { r1.2 with video_path_open := some video_path })
    else (emptyMat, r1.2)
  let vid := r2.1
  let st2 := r2.2
  if !img.isEmpty && !vid.isEmpty then
    let vid' :=
      if vid.rows ≠ img.rows ∨ vid.cols ≠ img.cols then
        cv.resize vid img.cols img.rows
      else vid
    if st2.has_alpha then (compose_with_video cv img vid', st2)
    else (img, st2)
  else if !vid.isEmpty then (vid, st2)
  else if !img.isEmpty then (img, st2)
  else
    let bg := create_default_background st2.default_bg
    (bg, { st2 with default_bg := bg })

def bgra2rgbPixels : List Nat → List Nat
  | b :: g :: r :: _ :: rest => r :: g :: b :: bgra2rgbPixels rest
  | _ => []

def bgr2rgbPixels : List Nat → List Nat
  | b :: g :: r :: rest => r :: g :: b :: bgr2rgbPixels rest
  | _ => []

/-- Modelled from the spec: the final conversion to RGB ("Always convert the
final BGR/BGRA frame to plain RGB before returning") is OpenCV
`cv::cvtColor(bg, bytes_mat, cv::COLOR_BGRA2RGB)`, an external routine not
part of this repository.  OpenCV dispatches the whole BGR/RGB(A) family
through `cvtColorBGR2BGR`, whose helper accepts a 3- or 4-channel source
(`scn` is read from the Mat), swaps the blue and red channels and drops any
alpha, producing a 3-channel RGB matrix; other channel counts raise
`cv::Exception`. -/
def cvtColor_BGRA2RGB (m : Mat) : Except String Mat :=
  if m.channels = 4 then .ok ⟨m.rows, m.cols, 3, bgra2rgbPixels m.data⟩
  else if m.channels = 3 then .ok ⟨m.rows, m.cols, 3, bgr2rgbPixels m.data⟩
  else .error "cvtColor: COLOR_BGRA2RGB requires a 3- or 4-channel source"

def get_background_bytes (cv : CvOps) (env : FsEnv) (st : BgState)
    (video_path image_path : String) : Except String (List Nat) :=
  let bg := (get_background cv env st video_path image_path).1
  if bg.isEmpty then .ok []
  else
    match cvtColor_BGRA2RGB bg with
    | .error e => .error e
    | .ok m => .ok m.data

def emptyFsEnv : FsEnv := ⟨false, 0, emptyMat, emptyMat⟩

/-- A well-formed frame as the spec's data model guarantees it: 320x240, BGR
or BGRA, with a full pixel buffer. -/
def MatWF (m : Mat) : Prop :=
  m.rows = 240 ∧ m.cols = 320 ∧ (m.channels = 3 ∨ m.channels = 4) ∧
  m.data.length = 240 * 320 * m.channels

theorem MatWF_not_empty (m : Mat) (h : MatWF m) : m.isEmpty = false := by
  simp [Mat.isEmpty, h.1, h.2.1]

theorem bgr2rgbPixels_length : ∀ l : List Nat,
    (bgr2rgbPixels l).length = l.length / 3 * 3
  | [] => rfl
  | [_] => by simp [bgr2rgbPixels]
  | [_, _] => by simp [bgr2rgbPixels]
  | _ :: _ :: _ :: rest => by
      have ih := bgr2rgbPixels_length rest
      simp only [bgr2rgbPixels, List.length_cons, ih]
      omega

theorem bgra2rgbPixels_length : ∀ l : List Nat,
    (bgra2rgbPixels l).length = l.length / 4 * 3
  | [] => rfl
  | [_] => by simp [bgra2rgbPixels]
  | [_, _] => by simp [bgra2rgbPixels]
  | [_, _, _] => by simp [bgra2rgbPixels]
  | _ :: _ :: _ :: _ :: rest => by
      have ih := bgra2rgbPixels_length rest
      simp only [bgra2rgbPixels, List.length_cons, ih]
      omega

theorem gradientData_length : gradientData.length = 230400 := by
  unfold gradientData
  have hin : ∀ m, ((List.range 320).flatMap (fun _ =>
      [gradientVal m, gradientVal m / 2, gradientVal m])).length = 960 := by
    intro m
    have h := flatMap_range_length
      (fun _ => [gradientVal m, gradientVal m / 2, gradientVal m]) 3
      (fun _ => rfl) 320
    simpa using h
  have h := flatMap_range_length
    (fun y => (List.range 320).flatMap (fun _ =>
      [gradientVal y, gradientVal y / 2, gradientVal y])) 960 hin 240
  simpa using h

/-- Conversion of a well-formed frame succeeds and yields exactly 230400 RGB
bytes. -/
theorem cvtColor_wf (bg : Mat) (h : MatWF bg) :
    ∃ bytes, cvtColor_BGRA2RGB bg = .ok ⟨bg.rows, bg.cols, 3, bytes⟩ ∧
      bytes.length = 230400 := by
  obtain ⟨hr, hc, hch, hl⟩ := h
  rcases hch with hch | hch
  · refine ⟨bgr2rgbPixels bg.data, ?_, ?_⟩
    · simp [cvtColor_BGRA2RGB, hch]
    · rw [bgr2rgbPixels_length, hl, hch]
  · refine ⟨bgra2rgbPixels bg.data, ?_, ?_⟩
    · simp [cvtColor_BGRA2RGB, hch]
    · rw [bgra2rgbPixels_length, hl, hch]

theorem load_static_default_bg (cv : CvOps) (env : FsEnv) (st : BgState)
    (p : String) :
    (load_static_background cv env st p).2.default_bg = st.default_bg := by
  unfold load_static_background
  split
  · rfl
  · split
    · dsimp only
      split
      · rfl
      · rfl
    · rfl

theorem load_static_wf (cv : CvOps) (env : FsEnv) (st : BgState) (p : String)
    (hresize : ∀ m w h, (cv.resize m w h).rows = h ∧ (cv.resize m w h).cols = w ∧
      (cv.resize m w h).channels = m.channels ∧
      (cv.resize m w h).data.length = h * w * m.channels)
    (himg : env.decodedImage.isEmpty = true ∨
      env.decodedImage.channels = 3 ∨ env.decodedImage.channels = 4)
    (hst : st.static_bg.isEmpty = true ∨ MatWF st.static_bg) :
    (load_static_background cv env st p).1.isEmpty = true ∨
      MatWF (load_static_background cv env st p).1 := by
  unfold load_static_background
  split
  · left
    rfl
  · split
    · dsimp only
      split
      · left
        rfl
      · next hne =>
        right
        obtain ⟨hr, hc, hch, hl⟩ := hresize env.decodedImage 320 240
        refine ⟨hr, hc, ?_, ?_⟩
        · rw [hch]
          rcases himg with h | h
          · exact absurd h (by simpa using hne)
          · exact h
        · rw [hl, hch]
    · next hcond =>
      right
      rcases hst with h | h
      · rw [h] at hcond
        simp at hcond
      · exact h
theorem get_background_wf (cv : CvOps) (env : FsEnv) (st : BgState)
    (video_path image_path : String)
    (hresize : ∀ m w h, (cv.resize m w h).rows = h ∧ (cv.resize m w h).cols = w ∧
      (cv.resize m w h).channels = m.channels ∧
      (cv.resize m w h).data.length = h * w * m.channels)
    (hblend : ∀ a v, (cv.blendBGRA a v).rows = a.rows ∧
      (cv.blendBGRA a v).cols = a.cols ∧ (cv.blendBGRA a v).channels = 4 ∧
      (cv.blendBGRA a v).data.length = a.rows * a.cols * 4)
    (himg : env.decodedImage.isEmpty = true ∨
      env.decodedImage.channels = 3 ∨ env.decodedImage.channels = 4)
    (hvid : env.videoFrame.isEmpty = true ∨ MatWF env.videoFrame)
    (hst : st.static_bg.isEmpty = true ∨ MatWF st.static_bg)
    (hdef : st.default_bg.isEmpty = true ∨ MatWF st.default_bg) :
    MatWF (get_background cv env st video_path image_path).1 := by
  have h1 : (if image_path ≠ "" then load_static_background cv env st image_path
      else (emptyMat, st)).1.isEmpty = true ∨
      MatWF (if image_path ≠ "" then load_static_background cv env st image_path
      else (emptyMat, st)).1 := by
    split
    · exact load_static_wf cv env st image_path hresize himg hst
    · left
      rfl
  have h1d : (if image_path ≠ "" then load_static_background cv env st image_path
      else (emptyMat, st)).2.default_bg = st.default_bg := by
    split
    · exact load_static_default_bg cv env st image_path
    · rfl
  unfold get_background
  dsimp only
  generalize hR1 : (if image_path ≠ "" then load_static_background cv env st image_path
      else (emptyMat, st)) = r1
  rw [hR1] at h1 h1d
  have h2 : (if video_path ≠ "" ∧ (pathExt video_path = ".mp4" ∨
        pathExt video_path = ".avi" ∨ pathExt video_path = ".mov" ∨
        pathExt video_path = ".mkv") then
        (env.videoFrame, { r1.2 with video_path_open := some video_path })
      else (emptyMat, r1.2)).1.isEmpty = true ∨
      MatWF (if video_path ≠ "" ∧ (pathExt video_path = ".mp4" ∨
        pathExt video_path = ".avi" ∨ pathExt video_path = ".mov" ∨
        pathExt video_path = ".mkv") then
        (env.videoFrame, { r1.2 with video_path_open := some video_path })
      else (emptyMat, r1.2)).1 := by
    split
    · exact hvid
    · left
      rfl
  have h2d : (if video_path ≠ "" ∧ (pathExt video_path = ".mp4" ∨
        pathExt video_path = ".avi" ∨ pathExt video_path = ".mov" ∨
        pathExt video_path = ".mkv") then
        (env.videoFrame, { r1.2 with video_path_open := some video_path })
      else (emptyMat, r1.2)).2.default_bg = r1.2.default_bg := by
    split
    · rfl
    · rfl
  generalize hR2 : (if video_path ≠ "" ∧ (pathExt video_path = ".mp4" ∨
        pathExt video_path = ".avi" ∨ pathExt video_path = ".mov" ∨
        pathExt video_path = ".mkv") then
        (env.videoFrame, { r1.2 with video_path_open := some video_path })
      else (emptyMat, r1.2)) = r2
  rw [hR2] at h2 h2d
  have hfall : MatWF (create_default_background r2.2.default_bg) := by
    rw [h2d, h1d]
    rcases hdef with he | hw
    · unfold create_default_background
      rw [he]
      refine ⟨rfl, rfl, Or.inl rfl, ?_⟩
      show gradientData.length = 240 * 320 * 3
      rw [gradientData_length]
    · unfold create_default_background
      rw [MatWF_not_empty _ hw]
      exact hw
  rcases h1 with h1e | h1w
  · rcases h2 with h2e | h2w
    · simp only [h1e, h2e, Bool.not_true, Bool.false_and, Bool.and_false,
        Bool.false_eq_true, if_false]
      exact hfall
    · simp only [h1e, MatWF_not_empty _ h2w, Bool.not_true, Bool.not_false,
        Bool.false_and, Bool.false_eq_true, if_false, Bool.true_eq_false]
      exact h2w
  · rcases h2 with h2e | h2w
    · simp only [h2e, MatWF_not_empty _ h1w, Bool.not_true, Bool.not_false,
        Bool.and_false, Bool.false_eq_true, if_false, Bool.true_eq_false]
      exact h1w
    · have hv' : MatWF (if r2.1.rows ≠ r1.1.rows ∨ r2.1.cols ≠ r1.1.cols then
          cv.resize r2.1 r1.1.cols r1.1.rows else r2.1) := by
        split
        · obtain ⟨hr, hc, hch, hl⟩ := hresize r2.1 r1.1.cols r1.1.rows
          refine ⟨by rw [hr, h1w.1], by rw [hc, h1w.2.1], ?_, ?_⟩
          · rw [hch]
            exact h2w.2.2.1
          · rw [hl, hch, h1w.1, h1w.2.1]
        · exact h2w
      simp only [MatWF_not_empty _ h1w, MatWF_not_empty _ h2w, Bool.not_false,
        Bool.and_self, if_true]
      have hcomp : ∀ v : Mat, MatWF v → MatWF (compose_with_video cv r1.1 v) := by
        intro v hvw
        unfold compose_with_video
        rw [MatWF_not_empty _ h1w, MatWF_not_empty _ hvw]
        simp only [Bool.or_self, Bool.false_eq_true, if_false]
        generalize (if v.rows ≠ r1.1.rows ∨ v.cols ≠ r1.1.cols then
          cv.resize v r1.1.cols r1.1.rows else v) = w
        obtain ⟨hr, hc, hch, hl⟩ := hblend r1.1 w
        exact ⟨by rw [hr, h1w.1], by rw [hc, h1w.2.1], Or.inr hch,
          by rw [hl, hch, h1w.1, h1w.2.1]⟩
      split
      · exact hcomp _ hv'
      · exact h1w



theorem get_background_empty_paths (cv : CvOps) (env : FsEnv) (st : BgState)
    (hdefE : st.default_bg.isEmpty = true) :
    (get_background cv env st "" "").1 = ⟨240, 320, 3, gradientData⟩ := by
  have hc : create_default_background st.default_bg = ⟨240, 320, 3, gradientData⟩ := by
    unfold create_default_background
    rw [hdefE]
    simp
  unfold get_background
  simp [Mat.isEmpty, emptyMat, hc]

/-- C9: `get_background_bytes` never fails: for every pair of (video_path,
image_path) arguments - under the environment and state well-formedness the
spec guarantees (decoded images are BGR or BGRA, video frames and cached
backgrounds are well-formed 320x240 frames, resize/blend produce the
requested geometry) - it returns a 230400-byte RGB buffer (320x240, 3 bytes
per pixel), the final BGR or BGRA frame being converted to plain RGB by
cvtColor (which accepts 3- and 4-channel sources); and when both paths are
empty (no cached gradient yet) the result is exactly the synthetic gradient
converted from BGR to RGB. -/
theorem get_background_bytes_total (cv : CvOps) (env : FsEnv) (st : BgState)
    (video_path image_path : String)
    (hresize : ∀ m w h, (cv.resize m w h).rows = h ∧ (cv.resize m w h).cols = w ∧
      (cv.resize m w h).channels = m.channels ∧
      (cv.resize m w h).data.length = h * w * m.channels)
    (hblend : ∀ a v, (cv.blendBGRA a v).rows = a.rows ∧
      (cv.blendBGRA a v).cols = a.cols ∧ (cv.blendBGRA a v).channels = 4 ∧
      (cv.blendBGRA a v).data.length = a.rows * a.cols * 4)
    (himg : env.decodedImage.isEmpty = true ∨
      env.decodedImage.channels = 3 ∨ env.decodedImage.channels = 4)
    (hvid : env.videoFrame.isEmpty = true ∨ MatWF env.videoFrame)
    (hst : st.static_bg.isEmpty = true ∨ MatWF st.static_bg)
    (hdef : st.default_bg.isEmpty = true ∨ MatWF st.default_bg) :
    (∃ bytes, get_background_bytes cv env st video_path image_path = .ok bytes ∧
      bytes.length = 230400) ∧
    (video_path = "" → image_path = "" → st.default_bg.isEmpty = true →
      get_background_bytes cv env st video_path image_path =
        .ok (bgr2rgbPixels gradientData)) := by
  have hwf := get_background_wf cv env st video_path image_path hresize hblend
    himg hvid hst hdef
  constructor
  · obtain ⟨bytes, hcv, hlen⟩ := cvtColor_wf _ hwf
    refine ⟨bytes, ?_, hlen⟩
    unfold get_background_bytes
    simp only [MatWF_not_empty _ hwf, Bool.false_eq_true, if_false, hcv]
  · intro hv hi hde
    subst hv
    subst hi
    have he := get_background_empty_paths cv env st hde
    unfold get_background_bytes
    rw [he]
    simp [Mat.isEmpty, cvtColor_BGRA2RGB]

def shapeCv : CvOps :=
  ⟨fun m w h => ⟨h, w, m.channels, List.replicate (h * w * m.channels) 0⟩,
   fun a _ => ⟨a.rows, a.cols, 4, List.replicate (a.rows * a.cols * 4) 0⟩⟩

/-- Witness for C9 at the empty-paths call on a fresh manager. -/
theorem get_background_bytes_total_witness :
    ∃ bytes, get_background_bytes shapeCv emptyFsEnv initialBgState "" "" =
      .ok bytes ∧ bytes.length = 230400 :=
  (get_background_bytes_total shapeCv emptyFsEnv initialBgState "" ""
    (fun m w h => ⟨rfl, rfl, rfl, by simp [shapeCv]⟩)
    (fun a v => ⟨rfl, rfl, rfl, by simp [shapeCv]⟩)
    (Or.inl rfl) (Or.inl rfl) (Or.inl rfl) (Or.inl rfl)).1

end LcdDriver
